import Mathlib

/-!
Verification development for the finance-python-projects repository:
a comparable-companies (trading comps) pipeline (`01_comps`) and a
discounted-cash-flow pipeline (`02_dcf`).

Pandas cells that may be NaN are modelled as `Option ℚ` (`none` = NaN /
missing).  Python functions that can raise are modelled as
`Except String _`.  All arithmetic is exact over `ℚ`.
-/

/-- Pandas NaN-propagating addition: `NaN + x = NaN`. -/
def optAdd (a b : Option ℚ) : Option ℚ :=
  a.bind fun x => b.map fun y => x + y

/-- Pandas NaN-propagating multiplication. -/
def optMul (a b : Option ℚ) : Option ℚ :=
  a.bind fun x => b.map fun y => x * y

/-- Pandas NaN-propagating subtraction. -/
def optSub (a b : Option ℚ) : Option ℚ :=
  a.bind fun x => b.map fun y => x - y

/-- Insert a value into a sorted list (ascending). -/
def insertSorted (x : ℚ) : List ℚ → List ℚ
  | [] => [x]
  | y :: ys => if x ≤ y then x :: y :: ys else y :: insertSorted x ys

/-- Sort a list of rationals ascending (insertion sort). -/
def sortQ (xs : List ℚ) : List ℚ := xs.foldr insertSorted []

/-- Linear-interpolation quantile of a sorted nonempty list, as pandas
`Series.quantile` computes it: position `h = p * (n - 1)`, value
`xs[⌊h⌋] + (h - ⌊h⌋) * (xs[⌊h⌋ + 1] - xs[⌊h⌋])`. -/
def quantileSorted (xs : List ℚ) (p : ℚ) : ℚ :=
  let n := xs.length
  let h : ℚ := p * ((n : ℚ) - 1)
  let i : ℕ := (Int.floor h).toNat
  let lo := xs.getD i 0
  let hi := xs.getD (i + 1) lo
  lo + (h - (i : ℚ)) * (hi - lo)

/-- Pandas `Series.quantile`: drop NaN entries, sort, interpolate; NaN
(`none`) when no real values remain. -/
def seriesQuantile (s : List (Option ℚ)) (p : ℚ) : Option ℚ :=
  let xs := sortQ (s.filterMap id)
  if xs.isEmpty then none else some (quantileSorted xs p)

/-- Pandas `Series.median` = `quantile 0.5` (mean of the two middle
values for an even count). -/
def seriesMedian (s : List (Option ℚ)) : Option ℚ :=
  seriesQuantile s (1 / 2)

/-- Pandas `Series.mean`: arithmetic mean of the non-NaN entries. -/
def seriesMean (s : List (Option ℚ)) : Option ℚ :=
  let xs := s.filterMap id
  if xs.isEmpty then none else some (xs.sum / (xs.length : ℚ))

/-- `np.clip` semantics for one value: `min (max x lo) hi`; a missing
(NaN) threshold applies no bound, as in `Series.clip`. -/
def clipVal (lo hi : Option ℚ) (x : ℚ) : ℚ :=
  let y := match lo with
    | some l => max x l
    | none => x
  match hi with
  | some h => min y h
  | none => y

/-- `Series.clip(lower, upper)`: clip every non-NaN cell, NaN cells pass
through. -/
def clipSeries (s : List (Option ℚ)) (lo hi : Option ℚ) : List (Option ℚ) :=
  s.map (Option.map (clipVal lo hi))

/-! ## 01_comps — `src/compute_multiples.py` and `app.py` -/

/-- One row of the comps table after numeric coercion
(`src/compute_multiples.py`): value columns may be NaN. -/
structure CompRow where
  ticker : String
  market_cap_m : Option ℚ
  net_debt_m : Option ℚ
  revenue_ltm_m : Option ℚ
  ebitda_ltm_m : Option ℚ
  net_income_ltm_m : Option ℚ
deriving DecidableEq, Repr

/-- A comps row augmented with EV and the three multiples
(output of `compute_multiples`). -/
structure MultRow extends CompRow where
  ev_m : Option ℚ
  ev_rev : Option ℚ
  ev_ebitda : Option ℚ
  pe : Option ℚ
deriving DecidableEq, Repr

/-- `safe_div` from `src/compute_multiples.py`: the denominator has its
zeros replaced by NaN before dividing, and infinities (impossible over ℚ
with a nonzero denominator) are replaced by NaN. -/
def safe_div (numer denom : Option ℚ) : Option ℚ :=
  numer.bind fun x => denom.bind fun y =>
    if y = 0 then none else some (x / y)

/-- `series.where(series > 0)` applied to one cell: keep the value only
when it is strictly positive, else NaN (NaN compares false, so it stays
NaN). -/
def whereGtZero (o : Option ℚ) : Option ℚ :=
  o.bind fun x => if 0 < x then some x else none

/-- Row-wise body of `compute_multiples`: EV = market cap + net debt;
each multiple divides safely by the denominator masked to its strictly
positive values. -/
def compute_multiples_row (r : CompRow) : MultRow :=
  let ev := optAdd r.market_cap_m r.net_debt_m
  { r with
    ev_m := ev
    ev_rev := safe_div ev (whereGtZero r.revenue_ltm_m)
    ev_ebitda := safe_div ev (whereGtZero r.ebitda_ltm_m)
    pe := safe_div r.market_cap_m (whereGtZero r.net_income_ltm_m) }

/-- `compute_multiples` from `src/compute_multiples.py`, applied to the
whole table. -/
def compute_multiples (df : List CompRow) : List MultRow :=
  df.map compute_multiples_row

/-- Gordon-Growth `terminal_value` from `src/dcf_valuation.py` (and,
identically, `02_dcf/app.py`): raises when `wacc <= g`. -/
def terminal_value (fcf_last wacc g : ℚ) : Except String ℚ :=
  if wacc ≤ g then
    .error "WACC must be strictly greater than terminal growth rate."
  else
    .ok (fcf_last * (1 + g) / (wacc - g))

/-- A multiple computed by `safe_div` over a positivity-masked
denominator is NaN whenever the denominator is missing or ≤ 0. -/
theorem safe_div_mask_none {n d : Option ℚ}
    (h : d = none ∨ ∃ x, d = some x ∧ x ≤ 0) :
    safe_div n (whereGtZero d) = none := by
  rcases n with _ | e
  · rfl
  rcases h with rfl | ⟨x, rfl, hle⟩
  · rfl
  · simp [safe_div, whereGtZero, not_lt.mpr hle]

/-- A real value out of `safe_div` over a positivity-masked denominator
comes from a real numerator divided by a strictly positive denominator. -/
theorem safe_div_mask_some {n d : Option ℚ} {v : ℚ}
    (h : safe_div n (whereGtZero d) = some v) :
    ∃ e x, n = some e ∧ d = some x ∧ 0 < x ∧ v = e / x := by
  rcases n with _ | e
  · simp [safe_div] at h
  rcases d with _ | x
  · simp [safe_div, whereGtZero] at h
  by_cases hx : 0 < x
  · have hx0 : x ≠ 0 := ne_of_gt hx
    simp [safe_div, whereGtZero, hx, hx0] at h
    exact ⟨e, x, rfl, rfl, hx, h.symm⟩
  · simp [safe_div, whereGtZero, hx] at h

/-- C1: for every input table and every row of `compute_multiples`, the
EV column equals `market_cap + net_debt`; each multiple is NaN whenever
its denominator is ≤ 0 or missing; and a real multiple only ever arises
from division by a strictly positive denominator (so no infinite value
and no division error can occur). -/
theorem C1_compute_multiples_safe (df : List CompRow) (out : MultRow)
    (hout : out ∈ compute_multiples df) :
    out.ev_m = optAdd out.market_cap_m out.net_debt_m
    ∧ ((out.revenue_ltm_m = none ∨ ∃ x, out.revenue_ltm_m = some x ∧ x ≤ 0) →
        out.ev_rev = none)
    ∧ ((out.ebitda_ltm_m = none ∨ ∃ x, out.ebitda_ltm_m = some x ∧ x ≤ 0) →
        out.ev_ebitda = none)
    ∧ ((out.net_income_ltm_m = none ∨ ∃ x, out.net_income_ltm_m = some x ∧ x ≤ 0) →
        out.pe = none)
    ∧ (∀ v, out.ev_rev = some v →
        ∃ e x, out.ev_m = some e ∧ out.revenue_ltm_m = some x ∧ 0 < x ∧ v = e / x)
    ∧ (∀ v, out.ev_ebitda = some v →
        ∃ e x, out.ev_m = some e ∧ out.ebitda_ltm_m = some x ∧ 0 < x ∧ v = e / x)
    ∧ (∀ v, out.pe = some v →
        ∃ e x, out.market_cap_m = some e ∧ out.net_income_ltm_m = some x ∧ 0 < x ∧ v = e / x) := by
  obtain ⟨r, _, rfl⟩ := List.mem_map.mp hout
  refine ⟨rfl, fun h => safe_div_mask_none h, fun h => safe_div_mask_none h,
    fun h => safe_div_mask_none h, fun v hv => safe_div_mask_some hv,
    fun v hv => safe_div_mask_some hv, fun v hv => safe_div_mask_some hv⟩

/-- Concrete witness row for C1: revenue is negative, EBITDA missing. -/
def c1Row : CompRow :=
  ⟨"AAA", some 5, some 7, some (-3), none, some 2⟩

/-- Witness for C1 at a concrete row: EV = 12, the EV/Revenue and
EV/EBITDA multiples are NaN. -/
theorem C1_compute_multiples_safe_witness :
    (compute_multiples_row c1Row).ev_m = some 12
    ∧ (compute_multiples_row c1Row).ev_rev = none
    ∧ (compute_multiples_row c1Row).ev_ebitda = none := by
  have h := C1_compute_multiples_safe [c1Row] (compute_multiples_row c1Row)
    (by simp [compute_multiples])
  refine ⟨?_, ?_, ?_⟩
  · rw [h.1]
    have h5 : (compute_multiples_row c1Row).market_cap_m = some 5 := rfl
    have h7 : (compute_multiples_row c1Row).net_debt_m = some 7 := rfl
    rw [h5, h7]
    norm_num [optAdd]
  · exact h.2.1 (Or.inr ⟨-3, rfl, by norm_num⟩)
  · exact h.2.2.1 (Or.inl rfl)

/-- C2 (amended): `terminal_value` errors exactly when `wacc ≤ g`; for
`wacc > g` it returns `fcf_last * (1 + g) / (wacc - g)`, which is
positive for positive `fcf_last` provided additionally `1 + g > 0`
(for `g ≤ -1` the returned value can be zero or negative). -/
theorem C2_terminal_value_spec (f w g : ℚ) :
    (w ≤ g → terminal_value f w g =
      .error "WACC must be strictly greater than terminal growth rate.")
    ∧ (g < w → terminal_value f w g = .ok (f * (1 + g) / (w - g)))
    ∧ (g < w → 0 < f → -1 < g → 0 < f * (1 + g) / (w - g)) := by
  refine ⟨fun h => by simp [terminal_value, h], fun h => by simp [terminal_value, not_le.mpr h],
    fun h hf hg => ?_⟩
  have h1 : (0 : ℚ) < 1 + g := by linarith
  have h2 : (0 : ℚ) < w - g := by linarith
  positivity

/-- Witness for C2 at the spec's concrete inputs: `wacc=0.08, g=0.08`
and `wacc=0.07, g=0.08` both error; `wacc=0.09, g=0.025` returns the
positive value `205/13`. -/
theorem C2_terminal_value_spec_witness :
    terminal_value 1 (8/100) (8/100) =
      .error "WACC must be strictly greater than terminal growth rate."
    ∧ terminal_value 1 (7/100) (8/100) =
      .error "WACC must be strictly greater than terminal growth rate."
    ∧ terminal_value 1 (9/100) (1/40) = .ok (205/13)
    ∧ (0 : ℚ) < 205/13 := by
  refine ⟨(C2_terminal_value_spec 1 (8/100) (8/100)).1 (by norm_num),
    (C2_terminal_value_spec 1 (7/100) (8/100)).1 (by norm_num), ?_, by norm_num⟩
  have h := (C2_terminal_value_spec 1 (9/100) (1/40)).2.1 (by norm_num)
  rw [h]
  norm_num

/-- Counterexample to C2 as stated: at `fcf_last = 1 > 0`,
`wacc = 0 > g = -2` the function succeeds but returns `-1/2`, which is
not positive. -/
theorem C2_terminal_value_counterexample :
    terminal_value 1 0 (-2) = .ok (-(1/2))
    ∧ (-2 : ℚ) < 0 ∧ (0 : ℚ) < 1 ∧ ¬ (0 : ℚ) < -(1/2) := by
  refine ⟨?_, by norm_num, by norm_num, by norm_num⟩
  have h : terminal_value 1 0 (-2) = .ok (1 * (1 + (-2)) / (0 - (-2))) := by
    norm_num [terminal_value]
  rw [h]
  norm_num

/-! ## 02_dcf — `app.py` `build_fcf_table` (parametrized form of
`src/fcf_build.py`) -/

/-- One year of the FCF schedule. -/
@[ext]
structure FcfRow where
  year : ℕ
  revenue : ℚ
  ebit : ℚ
  nopat : ℚ
  da : ℚ
  capex : ℚ
  deltaNwc : ℚ
  fcf : ℚ
deriving DecidableEq, Repr

/-- `build_fcf_table` from `02_dcf/app.py`, transliterating the list
comprehensions: `years = 1..n`, `revenue[i] = r0*(1+growth)^(i+1)`,
operating lines as fractions of revenue, `delta_nwc` with the year-0
baseline `r0 * nwcP` in front, and
`fcf[i] = nopat[i] + da[i] - capex[i] - delta_nwc[i]`. -/
def build_fcf_table (n : ℕ) (r0 growth margin tax daP capexP nwcP : ℚ) :
    List FcfRow :=
  let years := (List.range n).map (· + 1)
  let revenue := years.map fun t => r0 * (1 + growth) ^ t
  let ebit := revenue.map fun r => r * margin
  let nopat := ebit.map fun e => e * (1 - tax)
  let da := revenue.map fun r => r * daP
  let capex := revenue.map fun r => r * capexP
  let nwc := revenue.map fun r => r * nwcP
  let delta_nwc := (nwc.headD 0 - r0 * nwcP) ::
    (List.range (n - 1)).map fun i => nwc.getD (i + 1) 0 - nwc.getD i 0
  let fcf := (List.range n).map fun i =>
    nopat.getD i 0 + da.getD i 0 - capex.getD i 0 - delta_nwc.getD i 0
  (List.range n).map fun i =>
    ⟨years.getD i 0, revenue.getD i 0, ebit.getD i 0, nopat.getD i 0,
      da.getD i 0, capex.getD i 0, delta_nwc.getD i 0, fcf.getD i 0⟩

/-- Reading column `i` of a mapped range list. -/
theorem getD_map_range {α : Type} (f : ℕ → α) (d : α) {n i : ℕ} (h : i < n) :
    (((List.range n).map f).getD i d) = f i := by
  rw [List.getD_eq_getElem?_getD]
  rw [List.getElem?_map]
  simp [List.getElem?_range, h]

/-- `headD` is `getD 0`. -/
theorem headD_eq_getD {α : Type} (l : List α) (d : α) : l.headD d = l.getD 0 d := by
  cases l <;> rfl

/-- C3: the FCF projector returns exactly `n` years; year `t = i + 1`
carries `Revenue_t = r0 * (1+growth)^t`, `EBIT_t = Revenue_t * margin`,
`NOPAT_t = EBIT_t * (1 - tax)`, `D&A_t = Revenue_t * daP`,
`Capex_t = Revenue_t * capexP`,
`ΔNWC_t = Revenue_t * nwcP - Revenue_(t-1) * nwcP` (year-0 baseline
`NWC_0 = r0 * nwcP`), and `FCF_t = NOPAT_t + D&A_t - Capex_t - ΔNWC_t`.  The horizon is
positive: the source indexes `nwc[0]`, and the app restricts the horizon
widget to 3–10 years. -/
theorem C3_build_fcf_table (n : ℕ) (r0 growth margin tax daP capexP nwcP : ℚ)
    (hn : 0 < n) :
    (build_fcf_table n r0 growth margin tax daP capexP nwcP).length = n
    ∧ ∀ i, i < n →
      (build_fcf_table n r0 growth margin tax daP capexP nwcP)[i]? =
        some ⟨i + 1,
          r0 * (1 + growth) ^ (i + 1),
          r0 * (1 + growth) ^ (i + 1) * margin,
          r0 * (1 + growth) ^ (i + 1) * margin * (1 - tax),
          r0 * (1 + growth) ^ (i + 1) * daP,
          r0 * (1 + growth) ^ (i + 1) * capexP,
          r0 * (1 + growth) ^ (i + 1) * nwcP - r0 * (1 + growth) ^ i * nwcP,
          r0 * (1 + growth) ^ (i + 1) * margin * (1 - tax)
            + r0 * (1 + growth) ^ (i + 1) * daP
            - r0 * (1 + growth) ^ (i + 1) * capexP
            - (r0 * (1 + growth) ^ (i + 1) * nwcP - r0 * (1 + growth) ^ i * nwcP)⟩ := by
  constructor
  · simp [build_fcf_table]
  intro i hi
  have hdelta : ∀ j, j < n →
      ((((List.range n).map fun x => r0 * (1 + growth) ^ (x + 1) * nwcP).headD 0
          - r0 * nwcP) ::
        ((List.range (n - 1)).map fun k =>
          ((List.range n).map fun x => r0 * (1 + growth) ^ (x + 1) * nwcP).getD (k + 1) 0
          - ((List.range n).map fun x => r0 * (1 + growth) ^ (x + 1) * nwcP).getD k 0)).getD j 0
      = r0 * (1 + growth) ^ (j + 1) * nwcP - r0 * (1 + growth) ^ j * nwcP := by
    intro j hj
    match j with
    | 0 =>
      rw [List.getD_cons_zero, headD_eq_getD, getD_map_range _ _ hj]
      ring
    | Nat.succ k =>
      have hk : k < n - 1 := by omega
      have hk1 : k + 1 < n := by omega
      have hkn : k < n := by omega
      rw [List.getD_cons_succ, getD_map_range _ _ hk, getD_map_range _ _ hk1,
        getD_map_range _ _ hkn]
  simp only [build_fcf_table, List.map_map]
  rw [List.getElem?_map]
  rw [show (List.range n)[i]? = some i from by simp [List.getElem?_range, hi]]
  simp only [Option.map_some', Option.some.injEq]
  refine FcfRow.ext ?_ ?_ ?_ ?_ ?_ ?_ ?_ ?_ <;>
    simp only [Function.comp_def, getD_map_range _ _ hi, hdelta i hi] <;>
    ring

/-- Witness for C3 at the spec's end-to-end scenario
(`revenue_0=5000, growth=0.04, ebit_margin=0.20, tax=0.28`): 5 rows;
year-1 revenue is `5200`, EBIT `1040`, NOPAT `748.8 = 3744/5`. -/
theorem C3_build_fcf_table_witness :
    (build_fcf_table 5 5000 (1/25) (1/5) (7/25) (3/100) (1/25) (1/10)).length = 5
    ∧ (build_fcf_table 5 5000 (1/25) (1/5) (7/25) (3/100) (1/25) (1/10))[0]? =
        some ⟨1, 5200, 1040, 3744/5, 156, 208, 20, 3384/5⟩ := by
  refine ⟨(C3_build_fcf_table 5 5000 (1/25) (1/5) (7/25) (3/100) (1/25) (1/10)
    (by norm_num)).1, ?_⟩
  have h := (C3_build_fcf_table 5 5000 (1/25) (1/5) (7/25) (3/100) (1/25) (1/10)
    (by norm_num)).2 0 (by norm_num)
  rw [h]
  norm_num [FcfRow.mk.injEq]

/-- `discount` from `02_dcf/app.py` / `src/dcf_valuation.py`: cash flow
at index `i` (year `t = i + 1`) is divided by `(1 + rate)^t`. -/
def discount (values : List ℚ) (rate : ℚ) : List ℚ :=
  values.mapIdx fun i v => v / (1 + rate) ^ (i + 1)

/-- The single-point Equity Value of the DCF output path in
`02_dcf/app.py`: sum of discounted FCFs, plus the Gordon-Growth terminal
value discounted over the horizon, minus net debt. -/
def equityValuePoint (fcfs : List ℚ) (net_debt w g : ℚ) : ℚ :=
  (discount fcfs w).sum
    + (fcfs.getLastD 0 * (1 + g) / (w - g)) / (1 + w) ^ fcfs.length
    - net_debt

/-- `equity_value_for` from the sensitivity block of `02_dcf/app.py`:
`np.nan` (here `none`) when `w <= g`, otherwise the discounted equity
value; an exception escaping `terminal_value` would surface as
`.error`. -/
def equity_value_for (fcfs : List ℚ) (net_debt w g : ℚ) :
    Except String (Option ℚ) :=
  if w ≤ g then .ok none
  else
    let pv_fcfs := (discount fcfs w).sum
    match terminal_value (fcfs.getLastD 0) w g with
    | .error e => .error e
    | .ok tv =>
      let pv_tv := tv / (1 + w) ^ fcfs.length
      .ok (some (pv_fcfs + pv_tv - net_debt))

/-- WACC offsets of the sensitivity grid: −1%, −0.5%, 0, +0.5%, +1%. -/
def waccGrid (w : ℚ) : List ℚ :=
  [w - 1/100, w - 1/200, w, w + 1/200, w + 1/100]

/-- Terminal-growth offsets of the sensitivity grid: −0.5%, 0, +0.5%. -/
def gGrid (g : ℚ) : List ℚ :=
  [g - 1/200, g, g + 1/200]

/-- The sensitivity table of `02_dcf/app.py`: rows are growth values,
columns WACC values, cells `equity_value_for`. -/
def sensi (fcfs : List ℚ) (net_debt w g : ℚ) :
    List (List (Except String (Option ℚ))) :=
  (gGrid g).map fun gg => (waccGrid w).map fun ww =>
    equity_value_for fcfs net_debt ww gg

/-- One cell of the grid: the guard swallows exactly the `w ≤ g` cells,
every other cell is the single-point formula; no cell is ever an
exception. -/
theorem equity_value_for_eq (fcfs : List ℚ) (net_debt w g : ℚ) :
    equity_value_for fcfs net_debt w g =
      if w ≤ g then .ok none
      else .ok (some (equityValuePoint fcfs net_debt w g)) := by
  by_cases h : w ≤ g
  · simp [equity_value_for, h]
  · simp [equity_value_for, equityValuePoint, terminal_value, h]

/-- C4: in the WACC × growth sensitivity grid, every cell with
`wacc_cell ≤ g_cell` is "no value" (`.ok none` — no error propagates),
and every other cell equals the single-point Equity Value formula
evaluated at that cell's WACC and growth. -/
theorem C4_sensitivity_grid (fcfs : List ℚ) (net_debt w g : ℚ) :
    sensi fcfs net_debt w g =
      (gGrid g).map fun gg => (waccGrid w).map fun ww =>
        if ww ≤ gg then .ok none
        else .ok (some (equityValuePoint fcfs net_debt ww gg)) := by
  simp only [sensi, equity_value_for_eq]

/-! ## 01_comps/app.py — `normalize_columns` -/

/-- `c.strip().lower()` applied to a column name: drop leading and
trailing whitespace, then lowercase every character. -/
def normName (s : String) : String :=
  String.mk (((s.data.dropWhile Char.isWhitespace).reverse.dropWhile
    Char.isWhitespace).reverse.map Char.toLower)

/-- `COLUMN_ALIASES` from `01_comps/app.py`: canonical name →
accepted spellings, in order. -/
def COLUMN_ALIASES : List (String × List String) :=
  [("market_cap", ["market_cap", "market_cap_m", "mkt_cap", "marketcap",
      "market_capitalization"]),
   ("net_debt", ["net_debt", "net_debt_m", "netdebt"]),
   ("revenue", ["revenue", "revenue_ltm", "revenue_ltm_m", "sales",
      "sales_ltm", "sales_ltm_m"]),
   ("ebitda", ["ebitda", "ebitda_ltm", "ebitda_ltm_m"]),
   ("net_income", ["net_income", "net_income_ltm", "net_income_ltm_m",
      "net_profit", "profit"])]

/-- The inner loop of `normalize_columns`: the first variant present in
the (already lowercased) columns, if any (`break` after the first hit). -/
def firstPresent (variants cols : List String) : Option String :=
  variants.find? fun v => cols.contains v

/-- The `rename_map` loop of `normalize_columns`: one entry
`(variant, canonical)` per canonical name whose alias list has a variant
present among the columns. -/
def renameMap : List (String × List String) → List String → List (String × String)
  | [], _ => []
  | (canon, vs) :: rest, cols =>
    (match firstPresent vs cols with
     | some v => [(v, canon)]
     | none => []) ++ renameMap rest cols

/-- `df.rename(columns=rename_map)` on one column name. -/
def applyRename (m : List (String × String)) (c : String) : String :=
  (m.lookup c).getD c

/-- `normalize_columns` from `01_comps/app.py`: lowercase and strip all
column names, then rename through the alias map. -/
def normalize_columns (cols : List String) : List String :=
  let lowered := cols.map normName
  lowered.map (applyRename (renameMap COLUMN_ALIASES lowered))

/-- Alias lists of distinct canonical names are pairwise disjoint. -/
def PairwiseDisj (A : List (String × List String)) : Prop :=
  A.Pairwise fun p q => ∀ x, x ∈ p.2 → x ∉ q.2

/-- A name matching no alias at all is absent from the rename map. -/
theorem lookup_renameMap_of_not_alias (A : List (String × List String))
    (cols : List String) (c : String) (h : ∀ p ∈ A, c ∉ p.2) :
    (renameMap A cols).lookup c = none := by
  induction A with
  | nil => rfl
  | cons p rest ih =>
    obtain ⟨canon, vs⟩ := p
    have hc : c ∉ vs := h (canon, vs) (List.mem_cons_self _ _)
    have hrest : ∀ p ∈ rest, c ∉ p.2 := fun q hq => h q (List.mem_cons_of_mem _ hq)
    cases hfp : firstPresent vs cols with
    | none => simpa [renameMap, hfp] using ih hrest
    | some v =>
      have hv : v ∈ vs := List.mem_of_find?_eq_some hfp
      have hne : c ≠ v := fun hcv => hc (hcv ▸ hv)
      simp [renameMap, hfp, List.lookup, beq_false_of_ne hne, ih hrest]

/-- The first-present alias of a canonical name is renamed to it. -/
theorem lookup_renameMap_of_firstPresent (A : List (String × List String))
    (cols : List String) (canon : String) (vs : List String) (c : String)
    (hdisj : PairwiseDisj A) (hmem : (canon, vs) ∈ A)
    (hfp : firstPresent vs cols = some c) :
    (renameMap A cols).lookup c = some canon := by
  induction A with
  | nil => simp at hmem
  | cons p rest ih =>
    have hdisj' : PairwiseDisj rest := (List.pairwise_cons.mp hdisj).2
    rcases List.mem_cons.mp hmem with heq | hm
    · subst heq
      simp [renameMap, hfp, List.lookup]
    · obtain ⟨canon', vs'⟩ := p
      have hc : c ∈ vs := List.mem_of_find?_eq_some hfp
      have hcnot : c ∉ vs' := fun hcv =>
        (List.pairwise_cons.mp hdisj).1 (canon, vs) hm c hcv hc
      cases hfp' : firstPresent vs' cols with
      | none => simpa [renameMap, hfp'] using ih hdisj' hm
      | some v' =>
        have hv' : v' ∈ vs' := List.mem_of_find?_eq_some hfp'
        have hne : c ≠ v' := fun hcv => hcnot (hcv ▸ hv')
        simp [renameMap, hfp', List.lookup, beq_false_of_ne hne, ih hdisj' hm]

/-- An alias that is present but is not the first-present alias of its
canonical name is not renamed. -/
theorem lookup_renameMap_of_not_first (A : List (String × List String))
    (cols : List String) (canon : String) (vs : List String) (c v : String)
    (hdisj : PairwiseDisj A) (hmem : (canon, vs) ∈ A) (hc : c ∈ vs)
    (hfp : firstPresent vs cols = some v) (hne : v ≠ c) :
    (renameMap A cols).lookup c = none := by
  induction A with
  | nil => simp at hmem
  | cons p rest ih =>
    have hdisj' : PairwiseDisj rest := (List.pairwise_cons.mp hdisj).2
    rcases List.mem_cons.mp hmem with heq | hm
    · subst heq
      have hrest : ∀ q ∈ rest, c ∉ q.2 := fun q hq hcq =>
        (List.pairwise_cons.mp hdisj).1 q hq c hc hcq
      simp [renameMap, hfp, List.lookup, beq_false_of_ne (Ne.symm hne) ,
        lookup_renameMap_of_not_alias rest cols c hrest]
    · obtain ⟨canon', vs'⟩ := p
      have hcnot : c ∉ vs' := fun hcv =>
        (List.pairwise_cons.mp hdisj).1 (canon, vs) hm c hcv hc
      cases hfp' : firstPresent vs' cols with
      | none => simpa [renameMap, hfp'] using ih hdisj' hm
      | some v' =>
        have hv' : v' ∈ vs' := List.mem_of_find?_eq_some hfp'
        have hnec : c ≠ v' := fun hcv => hcnot (hcv ▸ hv')
        simp [renameMap, hfp', List.lookup, beq_false_of_ne hnec, ih hdisj' hm]

/-- The concrete alias table has pairwise disjoint alias lists. -/
theorem columnAliases_disjoint : PairwiseDisj COLUMN_ALIASES := by
  unfold PairwiseDisj
  decide

/-- C5 (amended): `normalize_columns` first lowercases and
whitespace-trims every column name; then a column whose normalized name
is the first-present alias of a canonical name is renamed to that
canonical name; a column matching no alias — or matching an alias that
is not the first-present one of its canonical name — passes through
with only the lowercase/trim normalization applied (so not
byte-for-byte unchanged). -/
theorem C5_normalize_columns (cols : List String) (i : ℕ) (c : String)
    (hc : (cols.map normName)[i]? = some c) :
    ((∀ p ∈ COLUMN_ALIASES, c ∉ p.2) → (normalize_columns cols)[i]? = some c)
    ∧ (∀ canon vs, (canon, vs) ∈ COLUMN_ALIASES →
        firstPresent vs (cols.map normName) = some c →
        (normalize_columns cols)[i]? = some canon)
    ∧ (∀ canon vs v, (canon, vs) ∈ COLUMN_ALIASES → c ∈ vs →
        firstPresent vs (cols.map normName) = some v → v ≠ c →
        (normalize_columns cols)[i]? = some c) := by
  have hix : (normalize_columns cols)[i]? =
      some (applyRename (renameMap COLUMN_ALIASES (cols.map normName)) c) := by
    simp only [normalize_columns]
    rw [List.getElem?_map, hc]
    rfl
  refine ⟨fun h => ?_, fun canon vs hmem hfp => ?_,
    fun canon vs v hmem hcv hfp hne => ?_⟩
  · rw [hix, applyRename, lookup_renameMap_of_not_alias _ _ _ h]
    rfl
  · rw [hix, applyRename,
      lookup_renameMap_of_firstPresent _ _ canon vs c columnAliases_disjoint hmem hfp]
    rfl
  · rw [hix, applyRename,
      lookup_renameMap_of_not_first _ _ canon vs c v columnAliases_disjoint hmem hcv hfp hne]
    rfl

/-- Counterexample to C5 as stated: the column `"Currency"` matches no
alias, yet it does not pass through unchanged — it is lowercased. -/
theorem C5_normalize_columns_counterexample :
    normalize_columns ["Currency"] = ["currency"]
    ∧ normalize_columns ["Currency"] ≠ ["Currency"] := by
  constructor
  · decide
  · decide

/-- Witness for C5: `"Revenue "` (trailing blank, capital R) is renamed
to canonical `"revenue"`; `"Foo"` matches no alias and passes through
lowercased. -/
theorem C5_normalize_columns_witness :
    (normalize_columns ["Revenue ", "Foo"])[0]? = some "revenue"
    ∧ (normalize_columns ["Revenue ", "Foo"])[1]? = some "foo" := by
  constructor
  · exact (C5_normalize_columns ["Revenue ", "Foo"] 0 "revenue" (by decide)).2.1
      "revenue" ["revenue", "revenue_ltm", "revenue_ltm_m", "sales",
        "sales_ltm", "sales_ltm_m"] (by decide) (by decide)
  · exact (C5_normalize_columns ["Revenue ", "Foo"] 1 "foo" (by decide)).1
      (by decide)

/-- `winsorize_series` from `src/compute_multiples.py` / `01_comps/app.py`:
clip the series at its own empirical quantiles. -/
def winsorize_series (s : List (Option ℚ)) (lower_q upper_q : ℚ) :
    List (Option ℚ) :=
  clipSeries s (seriesQuantile s lower_q) (seriesQuantile s upper_q)

/-- Clipping a value twice at the same bounds changes nothing. -/
theorem clipVal_idem (lo hi : Option ℚ) (x : ℚ) :
    clipVal lo hi (clipVal lo hi x) = clipVal lo hi x := by
  rcases lo with _ | l <;> rcases hi with _ | h <;> simp only [clipVal]
  · rw [min_assoc, min_self]
  · rw [max_assoc, max_self]
  · rcases le_total (max x l) h with h1 | h1
    · rw [min_eq_left h1, max_eq_left (le_max_right x l), min_eq_left h1]
    · rw [min_eq_right h1]
      rcases le_total l h with h2 | h2
      · rw [max_eq_left h2, min_self]
      · rw [max_eq_right h2, min_eq_right h2]

/-- C7 (amended): winsorization is stable under re-clipping at the same
bound *values*: clipping the winsorized series again at the originally
computed quantile bounds changes nothing.  (Re-winsorizing at the same
quantile *levels* recomputes the bounds from the clipped data and can
move values further — see the counterexample.) -/
theorem C7_winsorize_reclip_fixed (s : List (Option ℚ)) (lower_q upper_q : ℚ) :
    clipSeries (winsorize_series s lower_q upper_q)
        (seriesQuantile s lower_q) (seriesQuantile s upper_q)
      = winsorize_series s lower_q upper_q := by
  unfold winsorize_series clipSeries
  rw [List.map_map]
  apply List.map_congr_left
  intro o _
  simp only [Function.comp_apply, Option.map_map]
  cases o with
  | none => rfl
  | some x => simp [clipVal_idem]

/-- First winsorization pass of the C7 counterexample:
`[0, 100]` at quantile levels `0.2 / 0.8` clips to `[20, 80]`. -/
theorem winsorize_pass1 :
    winsorize_series [some (0:ℚ), some 100] (1/5) (4/5) = [some 20, some 80] := by
  have hq1 : seriesQuantile [some (0:ℚ), some 100] (1/5) = some 20 := by
    rw [show seriesQuantile [some (0:ℚ), some 100] (1/5)
        = some (quantileSorted [0, 100] (1/5)) from rfl]
    simp only [quantileSorted, List.length_cons, List.length_nil]
    norm_num
  have hq2 : seriesQuantile [some (0:ℚ), some 100] (4/5) = some 80 := by
    rw [show seriesQuantile [some (0:ℚ), some 100] (4/5)
        = some (quantileSorted [0, 100] (4/5)) from rfl]
    simp only [quantileSorted, List.length_cons, List.length_nil]
    norm_num
  rw [winsorize_series, hq1, hq2]
  simp only [clipSeries, List.map_cons, List.map_nil, Option.map_some']
  norm_num [clipVal, max_def, min_def]

/-- Second winsorization pass of the C7 counterexample: re-winsorizing
`[20, 80]` at the same levels moves the values again, to `[32, 68]`. -/
theorem winsorize_pass2 :
    winsorize_series [some (20:ℚ), some 80] (1/5) (4/5) = [some 32, some 68] := by
  have hq1 : seriesQuantile [some (20:ℚ), some 80] (1/5) = some 32 := by
    rw [show seriesQuantile [some (20:ℚ), some 80] (1/5)
        = some (quantileSorted [20, 80] (1/5)) from rfl]
    simp only [quantileSorted, List.length_cons, List.length_nil]
    norm_num
  have hq2 : seriesQuantile [some (20:ℚ), some 80] (4/5) = some 68 := by
    rw [show seriesQuantile [some (20:ℚ), some 80] (4/5)
        = some (quantileSorted [20, 80] (4/5)) from rfl]
    simp only [quantileSorted, List.length_cons, List.length_nil]
    norm_num
  rw [winsorize_series, hq1, hq2]
  simp only [clipSeries, List.map_cons, List.map_nil, Option.map_some']
  norm_num [clipVal, max_def, min_def]

/-- Counterexample to C7 as stated: winsorizing `[0, 100]` at the fixed
quantile bounds `(0.2, 0.8)` gives `[20, 80]`, but applying
`winsorize_series` a second time at the same bounds gives `[32, 68]` —
the second application does change the series. -/
theorem C7_winsorize_not_idempotent :
    winsorize_series (winsorize_series [some (0:ℚ), some 100] (1/5) (4/5))
        (1/5) (4/5)
      ≠ winsorize_series [some (0:ℚ), some 100] (1/5) (4/5) := by
  rw [winsorize_pass1, winsorize_pass2]
  decide

/-! ## 01_comps — implied valuation (`implied_valuation`,
`valuation_range` from `src/compute_multiples.py`; `implied_equity` from
`app.py`) -/

/-- The base-metric selection chain of `implied_valuation` /
`valuation_range`: `ev_ebitda → ebitda`, `ev_rev → revenue`, anything
else raises. -/
def baseSel (multiple_col : String) (t : MultRow) : Except String (Option ℚ) :=
  if multiple_col = "ev_ebitda" then .ok t.ebitda_ltm_m
  else if multiple_col = "ev_rev" then .ok t.revenue_ltm_m
  else .error "multiple_col must be one of: ev_ebitda, ev_rev."

/-- `peers[multiple_col]` as a series; an unknown column is a pandas
`KeyError`. -/
def colSeries (multiple_col : String) (df : List MultRow) :
    Except String (List (Option ℚ)) :=
  if multiple_col = "ev_rev" then .ok (df.map (·.ev_rev))
  else if multiple_col = "ev_ebitda" then .ok (df.map (·.ev_ebitda))
  else if multiple_col = "pe" then .ok (df.map (·.pe))
  else .error "KeyError"

/-- `equity_implied / market_cap - 1 if market_cap > 0 else nan`. -/
def upsideOf (equity_implied mc : Option ℚ) : Option ℚ :=
  match mc with
  | some m => if 0 < m then equity_implied.map (fun e => e / m - 1) else none
  | none => none

/-- The result record of `implied_valuation`. -/
structure ImpliedVal where
  multiple_metric : String
  multiple_used : ℚ
  base_value_m : ℚ
  ev_implied_m : ℚ
  equity_implied_m : Option ℚ
  current_market_cap_m : Option ℚ
  upside_pct : Option ℚ
deriving DecidableEq, Repr

/-- `implied_valuation` from `src/compute_multiples.py`: peer-median
multiple applied to the target's base metric; raises when the target is
absent, the peer median is NaN, the multiple kind is unsupported, or
the base metric is missing or ≤ 0. -/
def implied_valuation (df : List MultRow) (target_ticker multiple_col : String) :
    Except String ImpliedVal :=
  let peers := df.filter fun r => r.ticker != target_ticker
  match df.filter (fun r => r.ticker == target_ticker) with
  | [] => .error "Target ticker not found in dataset."
  | t :: _ =>
    match colSeries multiple_col peers with
    | .error e => .error e
    | .ok s =>
      match seriesMedian s with
      | none => .error "Cannot compute implied valuation: median is NaN."
      | some multiple =>
        match baseSel multiple_col t with
        | .error e => .error e
        | .ok none => .error "Target base is invalid (<=0 or missing)."
        | .ok (some base) =>
          if base ≤ 0 then .error "Target base is invalid (<=0 or missing)."
          else
            let ev_implied := multiple * base
            let equity_implied := optSub (some ev_implied) t.net_debt_m
            .ok ⟨multiple_col, multiple, base, ev_implied, equity_implied,
              t.market_cap_m, upsideOf equity_implied t.market_cap_m⟩

/-- The result record of `valuation_range` (P25/P50/P75 multiples,
implied EV, implied equity, upside). -/
structure ValRange where
  multiple_metric : String
  base_value_m : ℚ
  p25 : ℚ
  p50 : ℚ
  p75 : ℚ
  ev25 : ℚ
  ev50 : ℚ
  ev75 : ℚ
  eq25 : Option ℚ
  eq50 : Option ℚ
  eq75 : Option ℚ
  up25 : Option ℚ
  up50 : Option ℚ
  up75 : Option ℚ
  current_market_cap_m : Option ℚ
deriving DecidableEq, Repr

/-- `valuation_range` from `src/compute_multiples.py`: quantile range of
the (optionally winsorized) peer multiples applied to the target's base
metric.  The quantiles exist because the dropna'd series is nonempty, so
the `getD 0` defaults are never taken. -/
def valuation_range (df : List MultRow) (target_ticker multiple_col : String)
    (winsorize : Bool) (lower_q upper_q : ℚ) : Except String ValRange :=
  let peers := df.filter fun r => r.ticker != target_ticker
  match df.filter (fun r => r.ticker == target_ticker) with
  | [] => .error "Target ticker not found."
  | t :: _ =>
    match baseSel multiple_col t with
    | .error e => .error e
    | .ok none => .error "Target base invalid (<=0 or missing)."
    | .ok (some base) =>
      if base ≤ 0 then .error "Target base invalid (<=0 or missing)."
      else
        match colSeries multiple_col peers with
        | .error e => .error e
        | .ok s =>
          let mult := s.filterMap id
          if mult.isEmpty then .error "No valid peer multiples."
          else
            let multS := if winsorize
              then winsorize_series (mult.map some) lower_q upper_q
              else mult.map some
            let q25 := (seriesQuantile multS (1/4)).getD 0
            let q50 := (seriesQuantile multS (1/2)).getD 0
            let q75 := (seriesQuantile multS (3/4)).getD 0
            let eq25 := optSub (some (q25 * base)) t.net_debt_m
            let eq50 := optSub (some (q50 * base)) t.net_debt_m
            let eq75 := optSub (some (q75 * base)) t.net_debt_m
            .ok ⟨multiple_col, base, q25, q50, q75,
              q25 * base, q50 * base, q75 * base,
              eq25, eq50, eq75,
              upsideOf eq25 t.market_cap_m, upsideOf eq50 t.market_cap_m,
              upsideOf eq75 t.market_cap_m, t.market_cap_m⟩

/-- One row of the dashboard table in `01_comps/app.py` after
normalization and numeric coercion. -/
structure AppRow where
  company : String
  market_cap : Option ℚ
  net_debt : Option ℚ
  revenue : Option ℚ
  ebitda : Option ℚ
  net_income : Option ℚ
deriving DecidableEq, Repr

/-- `implied_equity` from `01_comps/app.py`: implied equity from a peer
multiple, with no check on the sign of the base metric; only an
unsupported multiple name raises. -/
def implied_equity (multiple_name : String) (multiple_value : ℚ)
    (target_row : AppRow) : Except String (Option ℚ) :=
  if multiple_name = "EV / Revenue" then
    .ok (optSub (optMul (some multiple_value) target_row.revenue)
      target_row.net_debt)
  else if multiple_name = "EV / EBITDA" then
    .ok (optSub (optMul (some multiple_value) target_row.ebitda)
      target_row.net_debt)
  else if multiple_name = "P / E" then
    .ok (optMul (some multiple_value) target_row.net_income)
  else .error "Unsupported multiple"

/-- `implied_valuation` returns a result only for a strictly positive
base metric. -/
theorem implied_valuation_ok_pos {df : List MultRow} {target col : String}
    {out : ImpliedVal} (h : implied_valuation df target col = .ok out) :
    0 < out.base_value_m := by
  simp only [implied_valuation] at h
  cases hf : df.filter (fun r => r.ticker == target) with
  | nil => rw [hf] at h; simp at h
  | cons t rest =>
    rw [hf] at h
    try dsimp only [] at h
    cases hcs : colSeries col (df.filter fun r => r.ticker != target) with
    | error e => rw [hcs] at h; simp at h
    | ok s =>
      rw [hcs] at h
      try dsimp only [] at h
      cases hmed : seriesMedian s with
      | none => rw [hmed] at h; simp at h
      | some m =>
        rw [hmed] at h
        try dsimp only [] at h
        cases hbs : baseSel col t with
        | error e => rw [hbs] at h; simp at h
        | ok ob =>
          rw [hbs] at h
          try dsimp only [] at h
          cases ob with
          | none => simp at h
          | some b =>
            by_cases hle : b ≤ 0
            · simp [hle] at h
            · simp only [if_neg hle, Except.ok.injEq] at h
              rw [← h]
              exact not_le.mp hle

/-- `valuation_range` returns a result only for a strictly positive base
metric. -/
theorem valuation_range_ok_pos {df : List MultRow} {target col : String}
    {w : Bool} {lq uq : ℚ} {out : ValRange}
    (h : valuation_range df target col w lq uq = .ok out) :
    0 < out.base_value_m := by
  simp only [valuation_range] at h
  cases hf : df.filter (fun r => r.ticker == target) with
  | nil => rw [hf] at h; simp at h
  | cons t rest =>
    rw [hf] at h
    try dsimp only [] at h
    cases hbs : baseSel col t with
    | error e => rw [hbs] at h; simp at h
    | ok ob =>
      rw [hbs] at h
      try dsimp only [] at h
      cases ob with
      | none => simp at h
      | some b =>
        by_cases hle : b ≤ 0
        · simp [hle] at h
        · simp only [if_neg hle] at h
          cases hcs : colSeries col (df.filter fun r => r.ticker != target) with
          | error e => rw [hcs] at h; simp at h
          | ok s =>
            rw [hcs] at h
            try dsimp only [] at h
            by_cases hemp : (s.filterMap id).isEmpty = true
            · simp [hemp] at h
            · simp only [if_neg hemp, Except.ok.injEq] at h
              rw [← h]
              exact not_le.mp hle

/-- C6 (amended): the batch solvers `implied_valuation` and
`valuation_range` raise whenever every target row's base metric is
missing or ≤ 0 (and also when the target is absent), and return a value
only off a strictly positive base.  The dashboard's `implied_equity`,
by contrast, performs no base check — see the counterexample. -/
theorem C6_base_guard (df : List MultRow) (target col : String)
    (hbad : ∀ r ∈ df, r.ticker = target →
      baseSel col r = .ok none ∨ ∃ b, baseSel col r = .ok (some b) ∧ b ≤ 0) :
    (∃ e, implied_valuation df target col = .error e)
    ∧ (∀ w lq uq, ∃ e, valuation_range df target col w lq uq = .error e)
    ∧ (∀ out, implied_valuation df target col = .ok out → 0 < out.base_value_m)
    ∧ (∀ w lq uq out, valuation_range df target col w lq uq = .ok out →
        0 < out.base_value_m) := by
  have htarget : ∀ t rest, df.filter (fun r => r.ticker == target) = t :: rest →
      baseSel col t = .ok none ∨ ∃ b, baseSel col t = .ok (some b) ∧ b ≤ 0 := by
    intro t rest hf
    have hmem : t ∈ df.filter (fun r => r.ticker == target) := by
      rw [hf]; exact List.mem_cons_self _ _
    have h2 := List.mem_filter.mp hmem
    exact hbad t h2.1 (by simpa using h2.2)
  refine ⟨?_, ?_, fun out h => implied_valuation_ok_pos h,
    fun w lq uq out h => valuation_range_ok_pos h⟩
  · cases hf : df.filter (fun r => r.ticker == target) with
    | nil =>
      exact ⟨"Target ticker not found in dataset.",
        by simp [implied_valuation, hf]⟩
    | cons t rest =>
      cases hcs : colSeries col (df.filter fun r => r.ticker != target) with
      | error e => exact ⟨e, by simp [implied_valuation, hf, hcs]⟩
      | ok s =>
        cases hmed : seriesMedian s with
        | none =>
          exact ⟨"Cannot compute implied valuation: median is NaN.",
            by simp [implied_valuation, hf, hcs, hmed]⟩
        | some m =>
          rcases htarget t rest hf with hnone | ⟨b, hsome, hle⟩
          · exact ⟨"Target base is invalid (<=0 or missing).",
              by simp [implied_valuation, hf, hcs, hmed, hnone]⟩
          · exact ⟨"Target base is invalid (<=0 or missing).",
              by simp [implied_valuation, hf, hcs, hmed, hsome, hle]⟩
  · intro w lq uq
    cases hf : df.filter (fun r => r.ticker == target) with
    | nil => exact ⟨"Target ticker not found.", by simp [valuation_range, hf]⟩
    | cons t rest =>
      rcases htarget t rest hf with hnone | ⟨b, hsome, hle⟩
      · exact ⟨"Target base invalid (<=0 or missing).",
          by simp [valuation_range, hf, hnone]⟩
      · exact ⟨"Target base invalid (<=0 or missing).",
          by simp [valuation_range, hf, hsome, hle]⟩

/-- A concrete peer row (only `ev_ebitda`/`ev_rev` filled as needed). -/
def c6Peer : MultRow :=
  ⟨⟨"PEER", none, none, none, none, none⟩, none, some 3, some 5, none⟩

/-- A concrete target row with negative EBITDA. -/
def c6Target : MultRow :=
  ⟨⟨"TGT", some 100, some 10, some 50, some (-2), none⟩, none, none, none, none⟩

/-- Witness for C6: with the target's EBITDA at −2, both batch solvers
raise on `ev_ebitda`. -/
theorem C6_base_guard_witness :
    (∃ e, implied_valuation [c6Peer, c6Target] "TGT" "ev_ebitda" = .error e)
    ∧ (∃ e, valuation_range [c6Peer, c6Target] "TGT" "ev_ebitda" true
        (1/20) (19/20) = .error e) := by
  have hbad : ∀ r ∈ [c6Peer, c6Target], r.ticker = "TGT" →
      baseSel "ev_ebitda" r = .ok none
      ∨ ∃ b, baseSel "ev_ebitda" r = .ok (some b) ∧ b ≤ 0 := by
    intro r hr ht
    rcases List.mem_cons.mp hr with rfl | hr2
    · simp [c6Peer] at ht
    · rcases List.mem_cons.mp hr2 with rfl | hr3
      · exact Or.inr ⟨-2, rfl, by norm_num⟩
      · simp at hr3
  have h := C6_base_guard [c6Peer, c6Target] "TGT" "ev_ebitda" hbad
  exact ⟨h.1, h.2.1 true (1/20) (19/20)⟩

/-- Counterexample to C6 as stated: the dashboard solver
`implied_equity` happily values off a negative revenue base
(`2 × (−100) − 50 = −250`) instead of raising. -/
theorem C6_implied_equity_counterexample :
    implied_equity "EV / Revenue" 2
        ⟨"TGT", some 500, some 50, some (-100), some 10, some 5⟩
      = .ok (some (-250))
    ∧ ((-100 : ℚ) < 0) := by
  constructor
  · norm_num [implied_equity, optMul, optSub]
  · norm_num

/-- The pandas median of a one-element series is that element. -/
theorem seriesMedian_singleton (x : ℚ) : seriesMedian [some x] = some x := by
  rw [show seriesMedian [some x] = some (quantileSorted [x] (1/2)) from rfl]
  simp only [quantileSorted, List.length_cons, List.length_nil]
  norm_num

/-- C8: degenerate round-trip.  If the single peer multiple fed to the
solver equals the target's own multiple `(mc + nd) / b` (EV over base,
EV = market cap + net debt) and the base `b` is strictly positive, the
implied Equity Value is exactly the target's market cap `mc` — for both
EV-based kinds of the dashboard solver, and through the batch solver
with a one-peer table, where implied EV is `multiple × base = mc + nd`
bridged back by the same net debt. -/
theorem C8_roundtrip (mc nd b : ℚ) (hb : 0 < b) :
    implied_equity "EV / Revenue" ((mc + nd) / b)
        ⟨"TGT", some mc, some nd, some b, none, none⟩ = .ok (some mc)
    ∧ implied_equity "EV / EBITDA" ((mc + nd) / b)
        ⟨"TGT", some mc, some nd, none, some b, none⟩ = .ok (some mc)
    ∧ ∃ out, implied_valuation
        [⟨⟨"PEER", none, none, none, none, none⟩, none, some ((mc + nd) / b),
            none, none⟩,
         ⟨⟨"TGT", some mc, some nd, some b, some b, none⟩, none, none, none,
            none⟩] "TGT" "ev_rev" = .ok out
        ∧ out.equity_implied_m = some mc ∧ out.ev_implied_m = mc + nd := by
  have hb0 : b ≠ 0 := ne_of_gt hb
  refine ⟨?_, ?_, ?_⟩
  · simp only [implied_equity, if_pos rfl, optMul, optSub, Option.bind_some,
      Option.map_some']
    congr 1
    field_simp
  · rw [show implied_equity "EV / EBITDA" ((mc + nd) / b)
        ⟨"TGT", some mc, some nd, none, some b, none⟩
      = .ok (optSub (optMul (some ((mc + nd) / b)) (some b)) (some nd)) from by
        simp [implied_equity]]
    simp only [optMul, optSub, Option.bind_some, Option.map_some']
    congr 1
    field_simp
  · have hval : implied_valuation
        [⟨⟨"PEER", none, none, none, none, none⟩, none, some ((mc + nd) / b),
            none, none⟩,
         ⟨⟨"TGT", some mc, some nd, some b, some b, none⟩, none, none, none,
            none⟩] "TGT" "ev_rev"
        = .ok ⟨"ev_rev", (mc + nd) / b, b, (mc + nd) / b * b,
            optSub (some ((mc + nd) / b * b)) (some nd), some mc,
            upsideOf (optSub (some ((mc + nd) / b * b)) (some nd)) (some mc)⟩ := by
      have e1 : (("PEER" : String) == "TGT") = false := by decide
      have e2 : (("TGT" : String) == "TGT") = true := by decide
      have e3 : (("PEER" : String) != "TGT") = true := by decide
      have e4 : (("TGT" : String) != "TGT") = false := by decide
      have e5 : ("PEER" : String) ≠ "TGT" := by decide
      have e6 : ("ev_rev" : String) ≠ "ev_ebitda" := by decide
      simp only [implied_valuation, List.filter_cons, List.filter_nil, e1, e2,
        e3, e4, Bool.false_eq_true, if_true, if_false, List.map_cons,
        List.map_nil, seriesMedian_singleton]
      norm_num [colSeries, baseSel, e5, e6, not_le.mpr hb, seriesMedian_singleton]
    refine ⟨_, hval, ?_, ?_⟩
    · show optSub (some ((mc + nd) / b * b)) (some nd) = some mc
      simp only [optSub, Option.bind_some, Option.map_some']
      congr 1
      field_simp
    · show (mc + nd) / b * b = mc + nd
      field_simp

/-- Witness for C8 at `mc = 100, nd = 20, b = 10` (multiple `= 12`). -/
theorem C8_roundtrip_witness :
    implied_equity "EV / Revenue" ((100 + 20) / 10)
        ⟨"TGT", some 100, some 20, some 10, none, none⟩ = .ok (some 100)
    ∧ ∃ out, implied_valuation
        [⟨⟨"PEER", none, none, none, none, none⟩, none, some ((100 + 20) / 10),
            none, none⟩,
         ⟨⟨"TGT", some 100, some 20, some 10, some 10, none⟩, none, none, none,
            none⟩] "TGT" "ev_rev" = .ok out
        ∧ out.equity_implied_m = some 100 := by
  have h := C8_roundtrip 100 20 10 (by norm_num)
  obtain ⟨out, h1, h2, h3⟩ := h.2.2
  exact ⟨h.1, out, h1, h2⟩

/-! ## 01_comps — peer aggregation (`peer_summary` from
`src/compute_multiples.py`, `stats` from `app.py`) -/

/-- `df[df["ticker"] != target]`: the peer set, target rows excluded. -/
def peersOf (df : List MultRow) (target_ticker : String) : List MultRow :=
  df.filter fun r => r.ticker != target_ticker

/-- The record returned by `peer_summary`. -/
structure PeerSummary where
  ev_rev_median : Option ℚ
  ev_ebitda_median : Option ℚ
  pe_median : Option ℚ
  ev_rev_mean : Option ℚ
  ev_ebitda_mean : Option ℚ
  pe_mean : Option ℚ
  n_peers : ℕ
deriving DecidableEq, Repr

/-- `peer_summary` from `src/compute_multiples.py`: medians and means of
the three multiples over the peer set, plus the peer count. -/
def peer_summary (df : List MultRow) (target_ticker : String) : PeerSummary :=
  let peers := peersOf df target_ticker
  ⟨seriesMedian (peers.map (·.ev_rev)), seriesMedian (peers.map (·.ev_ebitda)),
   seriesMedian (peers.map (·.pe)), seriesMean (peers.map (·.ev_rev)),
   seriesMean (peers.map (·.ev_ebitda)), seriesMean (peers.map (·.pe)),
   peers.length⟩

/-- The record returned by `stats` in `01_comps/app.py`: count of
non-missing values, mean, median and quartiles (all absent when the
series has no real values, mirroring the `{"n": 0}` early return). -/
structure StatsOut where
  n : ℕ
  mean : Option ℚ
  median : Option ℚ
  p25 : Option ℚ
  p75 : Option ℚ
deriving DecidableEq, Repr

/-- `stats` from `01_comps/app.py`. -/
def statsOf (s : List (Option ℚ)) : StatsOut :=
  let ys := s.filterMap id
  if ys.isEmpty then ⟨0, none, none, none, none⟩
  else ⟨ys.length, seriesMean s, seriesMedian s, seriesQuantile s (1/4),
    seriesQuantile s (3/4)⟩

/-- C9: peer aggregates are independent of the target row.  For two
tables whose rows agree on tickers and agree entirely outside the
target's rows (the target's multiples may differ arbitrarily), the peer
set, `peer_summary` (count/mean/median) and the per-column `stats`
records (including quartiles) coincide. -/
theorem C9_peer_stats_target_independent (df1 df2 : List MultRow)
    (target : String)
    (h : List.Forall₂ (fun r1 r2 => r1.ticker = r2.ticker ∧
      (r1.ticker ≠ target → r1 = r2)) df1 df2) :
    peersOf df1 target = peersOf df2 target
    ∧ peer_summary df1 target = peer_summary df2 target
    ∧ statsOf ((peersOf df1 target).map (·.ev_rev))
        = statsOf ((peersOf df2 target).map (·.ev_rev))
    ∧ statsOf ((peersOf df1 target).map (·.ev_ebitda))
        = statsOf ((peersOf df2 target).map (·.ev_ebitda))
    ∧ statsOf ((peersOf df1 target).map (·.pe))
        = statsOf ((peersOf df2 target).map (·.pe)) := by
  have hpeers : peersOf df1 target = peersOf df2 target := by
    induction h with
    | nil => rfl
    | cons hpair hrest ih =>
      rename_i a b l1 l2
      by_cases hticker : a.ticker = target
      · have hb : b.ticker = target := hpair.1 ▸ hticker
        simpa [peersOf, List.filter_cons, hticker, hb] using ih
      · have hab : a = b := hpair.2 hticker
        subst hab
        by_cases hkeep : (a.ticker != target) = true
        · simpa [peersOf, List.filter_cons, hkeep] using
            congrArg (fun l => a :: l) ih
        · simpa [peersOf, List.filter_cons, hkeep] using ih
  refine ⟨hpeers, ?_, by rw [hpeers], by rw [hpeers], by rw [hpeers]⟩
  simp only [peer_summary, hpeers]

/-- A concrete peer row for the C9 witness. -/
def c9Peer : MultRow :=
  ⟨⟨"P", some 10, some 2, some 6, some 4, some 3⟩, some 12, some 2, some 3,
    some (10/3)⟩

/-- The C9 target row, moderate multiples. -/
def c9T1 : MultRow :=
  ⟨⟨"TGT", some 50, some 5, some 20, some 10, some 8⟩, some 55, some 1, some 2,
    some 6⟩

/-- The C9 target row again, with extreme outlier multiples. -/
def c9T2 : MultRow :=
  ⟨⟨"TGT", some 50, some 5, some 20, some 10, some 8⟩, some 55, some 99999,
    none, some (-12345)⟩

/-- Witness for C9: swapping the target's multiples for extreme outliers
changes neither the peer summary nor the stats of a multiple column. -/
theorem C9_peer_stats_target_independent_witness :
    peer_summary [c9Peer, c9T1] "TGT" = peer_summary [c9Peer, c9T2] "TGT"
    ∧ statsOf ((peersOf [c9Peer, c9T1] "TGT").map (·.ev_rev))
        = statsOf ((peersOf [c9Peer, c9T2] "TGT").map (·.ev_rev)) := by
  have h : List.Forall₂ (fun r1 r2 => r1.ticker = r2.ticker ∧
      (r1.ticker ≠ "TGT" → r1 = r2)) [c9Peer, c9T1] [c9Peer, c9T2] :=
    List.Forall₂.cons ⟨rfl, fun _ => rfl⟩
      (List.Forall₂.cons ⟨rfl, fun hne => absurd rfl hne⟩ List.Forall₂.nil)
  have hall := C9_peer_stats_target_independent [c9Peer, c9T1] [c9Peer, c9T2]
    "TGT" h
  exact ⟨hall.2.1, hall.2.2.1⟩

/-! ## 01_comps — `validate_schema` from `src/compute_multiples.py` -/

/-- `REQUIRED_COLS` of the batch pipeline. -/
def REQUIRED_COLS : List String :=
  ["company", "ticker", "currency", "market_cap_m", "net_debt_m",
   "revenue_ltm_m", "ebitda_ltm_m", "net_income_ltm_m"]

/-- The raw table as `validate_schema` sees it: its column-name list
plus the `currency` and `ticker` columns (cells may be missing).  The
numeric columns are coerced with `errors="coerce"`, which never raises,
so they play no role in the checks. -/
structure RawTable where
  cols : List String
  currency : List (Option String)
  ticker : List (Option String)
deriving DecidableEq, Repr

/-- `Series.nunique()`: the number of distinct non-missing values. -/
def nunique (xs : List (Option String)) : ℕ :=
  (xs.filterMap id).dedup.length

/-- `validate_schema` from `src/compute_multiples.py`: missing required
columns, a currency column without exactly one distinct value, or a
missing ticker entry each raise. -/
def validate_schema (t : RawTable) : Except String RawTable :=
  let missing := REQUIRED_COLS.filter fun c => !(t.cols.contains c)
  if missing ≠ [] then .error "Missing required columns"
  else if nunique t.currency ≠ 1 then
    .error "Multiple currencies detected. Add FX normalization before proceeding."
  else if t.ticker.any (fun o => o.isNone) then
    .error "Ticker column contains missing values."
  else .ok t

/-- C10: `validate_schema` rejects more than missing columns — with all
required columns present (and numeric coercion never raising), it still
raises whenever the currency column holds more than one distinct value,
and whenever the ticker column has a missing entry. -/
theorem C10_validate_schema_rejects (t : RawTable)
    (hcols : ∀ c ∈ REQUIRED_COLS, c ∈ t.cols)
    (hbad : 1 < nunique t.currency ∨ none ∈ t.ticker) :
    ∃ e, validate_schema t = .error e := by
  have hmissing : REQUIRED_COLS.filter (fun c => !(t.cols.contains c)) = [] := by
    rw [List.filter_eq_nil_iff]
    intro c hc
    simp [hcols c hc]
  by_cases hcur : nunique t.currency ≠ 1
  · exact ⟨"Multiple currencies detected. Add FX normalization before proceeding.",
      by simp only [validate_schema]; rw [hmissing]; simp [hcur]⟩
  · have hticker : t.ticker.any (fun o => o.isNone) = true := by
      rcases hbad with hlt | hmem
      · omega
      · simp only [List.any_eq_true]
        exact ⟨none, hmem, rfl⟩
    exact ⟨"Ticker column contains missing values.",
      by simp only [validate_schema]; rw [hmissing]; simp [hcur, hticker]⟩

/-- Witness for C10: all required columns present, two currencies. -/
theorem C10_validate_schema_rejects_witness :
    ∃ e, validate_schema
      ⟨["company", "ticker", "currency", "market_cap_m", "net_debt_m",
        "revenue_ltm_m", "ebitda_ltm_m", "net_income_ltm_m"],
       [some "EUR", some "USD"], [some "AAA", some "BBB"]⟩ = .error e := by
  apply C10_validate_schema_rejects
  · intro c hc
    fin_cases hc <;> decide
  · left
    decide
